import Mathlib

/-!
Shallow embedding of `halotools/sim_manager/halo_catalog.py`
(`OverhauledHaloCatalog`).

The Python class is glue around external collaborators (`h5py`,
`HaloTableCache`, `manipulate_cache_log`, `astropy.table.Table`,
`get_redshift_string`): those collaborators are modelled as abstract
functions packaged in an `Env` record.  A Python instance is modelled as
an association list of attribute-name/value pairs (`setattr` prepends, so
the most recent binding shadows earlier ones, exactly as repeated
`setattr` calls do).  Methods thread the instance explicitly and also
return a trace of externally observable events (cache construction, path
resolution, table reads, metadata reads); fallible steps return `Except`.
-/

set_option autoImplicit false

namespace Halotools

/-- Opaque model of an `astropy.table.Table` produced by `Table.read`. -/
structure AstroTable where
  tag : Nat
deriving DecidableEq

/-- Python values that appear as attribute values in this excerpt. -/
inductive PyVal where
  /-- Python `None`. -/
  | none : PyVal
  /-- A Python `bool`. -/
  | bool : Bool → PyVal
  /-- A Python `int`. -/
  | int : Int → PyVal
  /-- A Python `str`. -/
  | str : String → PyVal
  /-- A Python `float`, e.g. the result of `float(...)`; modelled over `Rat`. -/
  | floatVal : Rat → PyVal
  /-- A raw HDF5 metadata attribute value, copied verbatim from the file. -/
  | rawAttr : String → PyVal
  /-- An `astropy.table.Table` object. -/
  | table : AstroTable → PyVal
  /-- The `HaloTableCache()` object built in `__init__` (external collaborator). -/
  | cacheObj : PyVal
deriving DecidableEq

/-- A Python instance: its dynamic attribute dictionary, most recent first. -/
abbrev Instance := List (String × PyVal)

/-- Keyword arguments of a call (a Python `dict`, so keys are unique in practice). -/
abbrev Kwargs := List (String × PyVal)

/-- First value bound to `key`, i.e. Python attribute lookup / `dict` lookup. -/
def lookupKey {α : Type} : List (String × α) → String → Option α
  | [], _ => Option.none
  | (k, v) :: rest, key => if k = key then Option.some v else lookupKey rest key

/-- The keys of an association list. -/
def keysOf {α : Type} (l : List (String × α)) : List String :=
  l.map Prod.fst

/-- `del d[key]`: remove the binding(s) for `key`. -/
def kwDelete : List (String × PyVal) → String → List (String × PyVal)
  | [], _ => []
  | (k, v) :: rest, key =>
      if k = key then kwDelete rest key else (k, v) :: kwDelete rest key

/-- Python `getattr(self, key)` (as an `Option`). -/
def getattr (s : Instance) (key : String) : Option PyVal :=
  lookupKey s key

/-- Python `setattr(self, key, v)`. -/
def setattr (s : Instance) (key : String) (v : PyVal) : Instance :=
  (key, v) :: s

/-- Python `hasattr(self, key)`. -/
def hasattr (s : Instance) (key : String) : Bool :=
  (getattr s key).isSome

/-- Exceptions this excerpt can raise. -/
inductive PyErr where
  /-- Python `AttributeError` for a missing attribute. -/
  | attributeError : String → PyErr
  /-- `halotools.custom_exceptions.HalotoolsError`. -/
  | halotoolsError : String → PyErr
deriving DecidableEq

/-- Externally observable events of a run. -/
inductive Event where
  /-- `HaloTableCache()` constructed. -/
  | cacheCreated : Event
  /-- `_retrieve_fname_halo_table` resolved the catalog path. -/
  | pathResolved : PyVal → Event
  /-- `Table.read(fname, path='data')`: the table dataset was read from `fname`. -/
  | tableLoad : PyVal → Event
  /-- `h5py.File(fname)` opened and its `.attrs` read in `_bind_metadata`. -/
  | metadataRead : PyVal → Event
deriving DecidableEq

/-- The external collaborators of the class, abstracted as total functions.
`h5pyAvailable` models whether `import h5py` succeeds;
the two `return_halo_table_fname_*` functions model `manipulate_cache_log`;
`tableRead` models `Table.read(fname, path='data')`;
`fileAttrs` models the `.attrs` dictionary of `h5py.File(fname)`
(key/value pairs in iteration order);
`get_redshift_string` models `halotools.sim_manager.log_entry.get_redshift_string`;
`pyfloat` models Python `float(...)` applied to a string. -/
structure Env where
  h5pyAvailable : Bool
  return_halo_table_fname_after_verification : PyVal → Kwargs → PyVal
  return_halo_table_fname_from_simname_inputs : Kwargs → PyVal
  tableRead : PyVal → AstroTable
  fileAttrs : PyVal → List (String × String)
  get_redshift_string : String → String
  pyfloat : String → Rat

/-- `OverhauledHaloCatalog._retrieve_fname_halo_table(self, **kwargs)`:
if `'fname' in kwargs`, pop it and verify the explicit filename, otherwise
resolve from the simulation-identifying keywords. -/
def retrieve_fname_halo_table (env : Env) (kwargs : Kwargs) : PyVal :=
  match lookupKey kwargs "fname" with
  | Option.some fname =>
      env.return_halo_table_fname_after_verification fname (kwDelete kwargs "fname")
  | Option.none =>
      env.return_halo_table_fname_from_simname_inputs kwargs

/-- `OverhauledHaloCatalog._load_halo_table(self)`:
`self._halo_table = Table.read(self.fname_halo_table, path='data')`. -/
def load_halo_table (env : Env) (s : Instance) :
    Except PyErr (Instance × List Event) :=
  match getattr s "fname_halo_table" with
  | Option.none => Except.error (PyErr.attributeError "fname_halo_table")
  | Option.some fn =>
      Except.ok
        (setattr s "_halo_table" (PyVal.table (env.tableRead fn)),
          [Event.tableLoad fn])

/-- One iteration of the `_bind_metadata` loop: bind the attribute value,
with the single key `redshift` parsed by `float(get_redshift_string(...))`. -/
def bindVal (env : Env) (key : String) (v : String) : PyVal :=
  if key = "redshift" then
    PyVal.floatVal (env.pyfloat (env.get_redshift_string v))
  else
    PyVal.rawAttr v

/-- `setattr(self, attr_key, ...)` for one metadata key/value pair. -/
def bindStep (env : Env) (s : Instance) (kv : String × String) : Instance :=
  setattr s kv.1 (bindVal env kv.1 kv.2)

/-- `OverhauledHaloCatalog._bind_metadata(self)`:
open `h5py.File(self.fname_halo_table)` and `setattr` every `attrs` key. -/
def bind_metadata (env : Env) (s : Instance) :
    Except PyErr (Instance × List Event) :=
  match getattr s "fname_halo_table" with
  | Option.none => Except.error (PyErr.attributeError "fname_halo_table")
  | Option.some fn =>
      Except.ok
        ((env.fileAttrs fn).foldl (bindStep env) s, [Event.metadataRead fn])

/-- The message of the `HalotoolsError` raised when `h5py` cannot be imported. -/
def h5pyErrMsg : String :=
  "Must have h5py package installed to use OverhauledHaloCatalog objects"

/-- `OverhauledHaloCatalog.__init__(self, preload_halo_table=False, **kwargs)`:
fail fast if `h5py` is unavailable; build the `HaloTableCache`; resolve and
store `fname_halo_table`; load the table now only if
`preload_halo_table is True`; finally bind the file metadata.
Returns the constructed instance (or the raised error) and the event trace. -/
def init (env : Env) (preload_halo_table : PyVal) (kwargs : Kwargs) :
    Except PyErr Instance × List Event :=
  if env.h5pyAvailable then
    let s1 : Instance := setattr [] "halo_table_cache" PyVal.cacheObj
    let fn := retrieve_fname_halo_table env kwargs
    let s2 := setattr s1 "fname_halo_table" fn
    let ev0 := [Event.cacheCreated, Event.pathResolved fn]
    if preload_halo_table = PyVal.bool true then
      match load_halo_table env s2 with
      | Except.error e => (Except.error e, ev0)
      | Except.ok (s3, ev1) =>
          match bind_metadata env s3 with
          | Except.error e => (Except.error e, ev0 ++ ev1)
          | Except.ok (s4, ev2) => (Except.ok s4, ev0 ++ ev1 ++ ev2)
    else
      match bind_metadata env s2 with
      | Except.error e => (Except.error e, ev0)
      | Except.ok (s4, ev2) => (Except.ok s4, ev0 ++ ev2)
  else
    (Except.error (PyErr.halotoolsError h5pyErrMsg), [])

/-- The `halo_table` property: load on first access, then return the cached
`_halo_table` attribute. -/
def halo_table (env : Env) (s : Instance) :
    Except PyErr (PyVal × Instance × List Event) :=
  match getattr s "_halo_table" with
  | Option.some v => Except.ok (v, s, [])
  | Option.none =>
      match load_halo_table env s with
      | Except.error e => Except.error e
      | Except.ok (s2, ev) =>
          match getattr s2 "_halo_table" with
          | Option.some v => Except.ok (v, s2, ev)
          | Option.none => Except.error (PyErr.attributeError "_halo_table")

/-- `OverhauledHaloCatalog.store_halocat_in_cache(...)`: the body is `pass`,
so it returns `None`, changes nothing, and emits no events. -/
def store_halocat_in_cache (s : Instance) (fname_halo_table : PyVal)
    (overwrite : PyVal) (neglect_supplementary_metadata : PyVal)
    (store_ptcl_table : PyVal) (kwargs : Kwargs) :
    Except PyErr (PyVal × Instance × List Event) :=
  Except.ok (PyVal.none, s, [])

/-! ### Basic lemmas about the attribute dictionary -/

/-- Setting an attribute makes it readable. -/
@[simp]
theorem getattr_setattr_same (s : Instance) (k : String) (v : PyVal) :
    getattr (setattr s k v) k = Option.some v := by
  simp [getattr, setattr, lookupKey]

/-- Setting one attribute leaves every other attribute unchanged. -/
theorem getattr_setattr_ne (s : Instance) (k k2 : String) (v : PyVal)
    (h : k ≠ k2) : getattr (setattr s k v) k2 = getattr s k2 := by
  simp [getattr, setattr, lookupKey, h]

/-- Setting an attribute never erases an attribute. -/
theorem isSome_getattr_setattr (s : Instance) (k k2 : String) (v : PyVal)
    (h : (getattr s k2).isSome = true) :
    (getattr (setattr s k v) k2).isSome = true := by
  by_cases hk : k = k2
  · subst hk; simp
  · rwa [getattr_setattr_ne s k k2 v hk]

/-- The metadata-binding loop does not touch keys absent from the attribute list. -/
theorem getattr_foldl_bindStep_not_mem (env : Env) (l : List (String × String))
    (s : Instance) (k : String) (h : k ∉ keysOf l) :
    getattr (l.foldl (bindStep env) s) k = getattr s k := by
  induction l generalizing s with
  | nil => rfl
  | cons kv rest ih =>
      simp only [keysOf, List.map_cons, List.mem_cons] at h
      push_neg at h
      simp only [List.foldl_cons]
      rw [ih _ (by simpa [keysOf] using h.2)]
      exact getattr_setattr_ne _ _ _ _ h.1.symm

/-- The metadata-binding loop never erases an attribute. -/
theorem isSome_getattr_foldl_bindStep (env : Env) (l : List (String × String))
    (s : Instance) (k : String) (h : (getattr s k).isSome = true) :
    (getattr (l.foldl (bindStep env) s) k).isSome = true := by
  induction l generalizing s with
  | nil => exact h
  | cons kv rest ih =>
      simp only [List.foldl_cons]
      exact ih _ (isSome_getattr_setattr _ _ _ _ h)

/-- After the loop, a key whose last occurrence in the attribute list carries
value `v` is bound to `bindVal env k v`, whatever was bound before. -/
theorem getattr_foldl_bindStep_last (env : Env) (l1 l2 : List (String × String))
    (s : Instance) (k : String) (v : String) (h : k ∉ keysOf l2) :
    getattr ((l1 ++ (k, v) :: l2).foldl (bindStep env) s) k =
      Option.some (bindVal env k v) := by
  rw [List.foldl_append, List.foldl_cons,
    getattr_foldl_bindStep_not_mem env l2 _ k h]
  exact getattr_setattr_same _ _ _

/-! ### Evaluation lemmas for the constructor -/

/-- The instance as it stands just before `_bind_metadata` runs,
when `preload_halo_table` was not the `True` object. -/
def preMetadataState (env : Env) (kwargs : Kwargs) : Instance :=
  setattr (setattr [] "halo_table_cache" PyVal.cacheObj)
    "fname_halo_table" (retrieve_fname_halo_table env kwargs)

/-- With `h5py` available and any `preload_halo_table` other than the `True`
object, the constructor binds metadata over the pre-metadata state and its
trace holds no table load. -/
theorem init_eval_noload (env : Env) (preload : PyVal) (kw : Kwargs)
    (hh : env.h5pyAvailable = true) (hp : preload ≠ PyVal.bool true) :
    init env preload kw =
      (Except.ok ((env.fileAttrs (retrieve_fname_halo_table env kw)).foldl
          (bindStep env) (preMetadataState env kw)),
        [Event.cacheCreated, Event.pathResolved (retrieve_fname_halo_table env kw),
          Event.metadataRead (retrieve_fname_halo_table env kw)]) := by
  simp [init, hh, hp, bind_metadata, preMetadataState]

/-- With `h5py` available and `preload_halo_table` the `True` object, the
constructor loads the table, then binds metadata; its trace records the load
between path resolution and the metadata read. -/
theorem init_eval_preload (env : Env) (kw : Kwargs)
    (hh : env.h5pyAvailable = true) :
    init env (PyVal.bool true) kw =
      (Except.ok ((env.fileAttrs (retrieve_fname_halo_table env kw)).foldl
          (bindStep env)
          (setattr (preMetadataState env kw) "_halo_table"
            (PyVal.table (env.tableRead (retrieve_fname_halo_table env kw))))),
        [Event.cacheCreated, Event.pathResolved (retrieve_fname_halo_table env kw),
          Event.tableLoad (retrieve_fname_halo_table env kw),
          Event.metadataRead (retrieve_fname_halo_table env kw)]) := by
  simp [init, hh, load_halo_table, bind_metadata, preMetadataState,
    getattr_setattr_ne, getattr, setattr, lookupKey]

/-- Any successfully constructed instance carries a `fname_halo_table` attribute. -/
theorem init_ok_fname (env : Env) (p : PyVal) (kw : Kwargs) (s : Instance)
    (tr : List Event) (h : init env p kw = (Except.ok s, tr)) :
    (getattr s "fname_halo_table").isSome = true := by
  by_cases hh : env.h5pyAvailable = true
  · by_cases hp : p = PyVal.bool true
    · subst hp
      rw [init_eval_preload env kw hh] at h
      simp only [Prod.mk.injEq, Except.ok.injEq] at h
      obtain ⟨hs, -⟩ := h
      subst hs
      apply isSome_getattr_foldl_bindStep
      rw [getattr_setattr_ne _ _ _ _ (by decide), preMetadataState]
      simp
    · rw [init_eval_noload env p kw hh hp] at h
      simp only [Prod.mk.injEq, Except.ok.injEq] at h
      obtain ⟨hs, -⟩ := h
      subst hs
      apply isSome_getattr_foldl_bindStep
      rw [preMetadataState]
      simp
  · simp only [Bool.not_eq_true] at hh
    simp [init, hh] at h

/-! ### Concrete environments for witnesses and counterexamples -/

/-- A concrete benign environment: `h5py` importable, explicit filenames
verify to themselves, and every file carries a `simname` and a `redshift`
metadata attribute. -/
def demoEnv : Env where
  h5pyAvailable := true
  return_halo_table_fname_after_verification := fun f _ => f
  return_halo_table_fname_from_simname_inputs := fun _ => PyVal.str "cached.hdf5"
  tableRead := fun _ => AstroTable.mk 3
  fileAttrs := fun _ => [("simname", "bolshoi"), ("redshift", "1.2345")]
  get_redshift_string := fun s => s
  pyfloat := fun _ => (0 : Rat)

/-- An environment whose files are exactly `demoEnv`'s except that `h5py`
cannot be imported. -/
def noH5Env : Env :=
  { demoEnv with h5pyAvailable := false }

/-- Keyword arguments passing an explicit filename. -/
def wKw : Kwargs := [("fname", PyVal.str "f.hdf5")]

/-- The instance `init demoEnv (PyVal.bool false) wKw` constructs. -/
def wInst : Instance :=
  [("redshift", PyVal.floatVal 0), ("simname", PyVal.rawAttr "bolshoi"),
    ("fname_halo_table", PyVal.str "f.hdf5"), ("halo_table_cache", PyVal.cacheObj)]

/-- The trace `init demoEnv (PyVal.bool false) wKw` produces. -/
def wTr : List Event :=
  [Event.cacheCreated, Event.pathResolved (PyVal.str "f.hdf5"),
    Event.metadataRead (PyVal.str "f.hdf5")]

/-! ### The claims -/

/-- C1: on every successfully constructed instance, the first `halo_table`
property access returns a value that is stored in `_halo_table`, and a second
access returns the very same value and state while performing no load
(empty event trace). -/
theorem C1_halo_table_repeated_access_cached
    (env : Env) (p : PyVal) (kw : Kwargs) (s : Instance) (tr : List Event)
    (h : init env p kw = (Except.ok s, tr)) :
    ∃ v s2 ev, halo_table env s = Except.ok (v, s2, ev) ∧
      getattr s2 "_halo_table" = Option.some v ∧
      halo_table env s2 = Except.ok (v, s2, []) := by
  have hfn := init_ok_fname env p kw s tr h
  cases hht : getattr s "_halo_table" with
  | some v =>
      refine ⟨v, s, [], ?_, hht, ?_⟩ <;> simp [halo_table, hht]
  | none =>
      obtain ⟨fn, hfneq⟩ := Option.isSome_iff_exists.mp hfn
      refine ⟨PyVal.table (env.tableRead fn),
        setattr s "_halo_table" (PyVal.table (env.tableRead fn)),
        [Event.tableLoad fn], ?_, ?_, ?_⟩
      · simp [halo_table, hht, load_halo_table, hfneq]
      · exact getattr_setattr_same _ _ _
      · simp [halo_table]

/-- Witness for C1 at a concrete benign construction. -/
theorem C1_halo_table_repeated_access_cached_witness :
    ∃ v s2 ev, halo_table demoEnv wInst = Except.ok (v, s2, ev) ∧
      getattr s2 "_halo_table" = Option.some v ∧
      halo_table demoEnv s2 = Except.ok (v, s2, []) :=
  C1_halo_table_repeated_access_cached demoEnv (PyVal.bool false) wKw wInst wTr
    rfl

/-- C4: `_retrieve_fname_halo_table` dispatches on the presence of the
`fname` keyword: if present, it verifies that explicit filename against the
remaining keyword arguments; otherwise it resolves from the
simulation-identifying keyword arguments. -/
theorem C4_retrieve_fname_dispatch (env : Env) (kw : Kwargs) :
    (∀ f, lookupKey kw "fname" = Option.some f →
      retrieve_fname_halo_table env kw =
        env.return_halo_table_fname_after_verification f (kwDelete kw "fname")) ∧
    (lookupKey kw "fname" = Option.none →
      retrieve_fname_halo_table env kw =
        env.return_halo_table_fname_from_simname_inputs kw) := by
  constructor
  · intro f hf
    simp [retrieve_fname_halo_table, hf]
  · intro hf
    simp [retrieve_fname_halo_table, hf]

/-- Witness for C4 on a concrete keyword dictionary containing `fname`. -/
theorem C4_retrieve_fname_dispatch_witness :
    retrieve_fname_halo_table demoEnv wKw =
      demoEnv.return_halo_table_fname_after_verification (PyVal.str "f.hdf5")
        (kwDelete wKw "fname") :=
  (C4_retrieve_fname_dispatch demoEnv wKw).1 (PyVal.str "f.hdf5") (by decide)

/-- C6: `store_halocat_in_cache` is a no-op for every combination of
arguments: it returns `None`, leaves the instance unchanged, performs no
file or cache action, and never raises. -/
theorem C6_store_halocat_noop (s : Instance) (f o n sp : PyVal) (kw : Kwargs) :
    store_halocat_in_cache s f o n sp kw = Except.ok (PyVal.none, s, []) :=
  rfl

/-- C9: the constructor compares `preload_halo_table` with `is True`, so any
value other than the `True` object itself — including truthy values such as
the integer 1 — behaves exactly as `False` does. -/
theorem C9_preload_requires_exactly_true
    (env : Env) (kw : Kwargs) (p : PyVal) (hp : p ≠ PyVal.bool true) :
    init env p kw = init env (PyVal.bool false) kw := by
  simp [init, hp]

/-- Witness for C9 at the truthy integer 1. -/
theorem C9_preload_requires_exactly_true_witness :
    init demoEnv (PyVal.int 1) wKw = init demoEnv (PyVal.bool false) wKw :=
  C9_preload_requires_exactly_true demoEnv wKw (PyVal.int 1) (by decide)

/-- C5: `__init__` raises if and only if `h5py` cannot be imported, and when
it raises it does so at the very start: the error is the `HalotoolsError`
about `h5py` and the trace is empty — no cache construction, path
resolution, or file access has happened. -/
theorem C5_fail_fast_iff_no_h5py (env : Env) (p : PyVal) (kw : Kwargs) :
    ((∃ e, (init env p kw).1 = Except.error e) ↔ env.h5pyAvailable = false) ∧
    (env.h5pyAvailable = false →
      init env p kw = (Except.error (PyErr.halotoolsError h5pyErrMsg), [])) := by
  by_cases hh : env.h5pyAvailable = true
  · refine ⟨⟨?_, ?_⟩, ?_⟩
    · rintro ⟨e, he⟩
      by_cases hp : p = PyVal.bool true
      · subst hp
        rw [init_eval_preload env kw hh] at he
        simp at he
      · rw [init_eval_noload env p kw hh hp] at he
        simp at he
    · intro hc
      rw [hh] at hc
      cases hc
    · intro hc
      rw [hh] at hc
      cases hc
  · simp only [Bool.not_eq_true] at hh
    refine ⟨⟨fun _ => hh, fun _ => ⟨PyErr.halotoolsError h5pyErrMsg, ?_⟩⟩,
      fun _ => ?_⟩ <;> simp [init, hh]

/-- Witness for C5 in an environment without `h5py`. -/
theorem C5_fail_fast_iff_no_h5py_witness :
    init noH5Env PyVal.none wKw =
      (Except.error (PyErr.halotoolsError h5pyErrMsg), []) :=
  (C5_fail_fast_iff_no_h5py noH5Env PyVal.none wKw).2 rfl

/-- Every successful construction decomposes as the metadata-binding loop run
over a base state that holds the resolved filename and nothing else beyond
the constructor-written fields. -/
theorem init_ok_shape (env : Env) (p : PyVal) (kw : Kwargs) (s : Instance)
    (tr : List Event) (h : init env p kw = (Except.ok s, tr)) :
    ∃ base : Instance,
      s = (env.fileAttrs (retrieve_fname_halo_table env kw)).foldl
        (bindStep env) base ∧
      getattr base "fname_halo_table" =
        Option.some (retrieve_fname_halo_table env kw) ∧
      (∀ k, k ≠ "halo_table_cache" → k ≠ "fname_halo_table" →
        k ≠ "_halo_table" → getattr base k = Option.none) := by
  by_cases hh : env.h5pyAvailable = true
  · by_cases hp : p = PyVal.bool true
    · subst hp
      rw [init_eval_preload env kw hh] at h
      simp only [Prod.mk.injEq, Except.ok.injEq] at h
      obtain ⟨hs, -⟩ := h
      subst hs
      refine ⟨_, rfl, ?_, ?_⟩
      · rw [getattr_setattr_ne _ _ _ _ (by decide)]
        simp [preMetadataState]
      · intro k h1 h2 h3
        simp [preMetadataState, getattr, setattr, lookupKey,
          Ne.symm h1, Ne.symm h2, Ne.symm h3]
    · rw [init_eval_noload env p kw hh hp] at h
      simp only [Prod.mk.injEq, Except.ok.injEq] at h
      obtain ⟨hs, -⟩ := h
      subst hs
      refine ⟨_, rfl, ?_, ?_⟩
      · simp [preMetadataState]
      · intro k h1 h2 h3
        simp [preMetadataState, getattr, setattr, lookupKey,
          Ne.symm h1, Ne.symm h2]
  · simp only [Bool.not_eq_true] at hh
    simp [init, hh] at h

/-- C3: whenever the file metadata carries a `redshift` key (`raw` being the
value of its last occurrence), the constructed instance's `redshift`
attribute is the float parsed via `get_redshift_string`, not the raw stored
value. -/
theorem C3_redshift_parsed_to_float
    (env : Env) (p : PyVal) (kw : Kwargs) (s : Instance) (tr : List Event)
    (l1 l2 : List (String × String)) (raw : String)
    (h : init env p kw = (Except.ok s, tr))
    (hattrs : env.fileAttrs (retrieve_fname_halo_table env kw) =
      l1 ++ ("redshift", raw) :: l2)
    (hlast : "redshift" ∉ keysOf l2) :
    getattr s "redshift" =
      Option.some (PyVal.floatVal (env.pyfloat (env.get_redshift_string raw))) ∧
    getattr s "redshift" ≠ Option.some (PyVal.rawAttr raw) := by
  obtain ⟨base, rfl, -, -⟩ := init_ok_shape env p kw s tr h
  rw [hattrs, getattr_foldl_bindStep_last env l1 l2 base "redshift" raw hlast]
  constructor
  · simp [bindVal]
  · simp [bindVal]

/-- Witness for C3 at a concrete construction whose file stores
`redshift` as the string encoding `1.2345`. -/
theorem C3_redshift_parsed_to_float_witness :
    getattr wInst "redshift" =
      Option.some (PyVal.floatVal
        (demoEnv.pyfloat (demoEnv.get_redshift_string "1.2345"))) ∧
    getattr wInst "redshift" ≠ Option.some (PyVal.rawAttr "1.2345") :=
  C3_redshift_parsed_to_float demoEnv (PyVal.bool false) wKw wInst wTr
    [("simname", "bolshoi")] [] "1.2345" rfl rfl (by decide)

/-- C7: constructing with `preload_halo_table=True` loads the table during
construction — the trace records the load between path resolution and the
metadata read, `_halo_table` is populated when `__init__` returns (with the
table read from the resolved file, unless file metadata shadows the field),
and the later property access returns the stored value with no load. -/
theorem C7_preload_loads_at_construction
    (env : Env) (kw : Kwargs) (s : Instance) (tr : List Event)
    (h : init env (PyVal.bool true) kw = (Except.ok s, tr)) :
    ∃ v, getattr s "_halo_table" = Option.some v ∧
      halo_table env s = Except.ok (v, s, []) ∧
      tr = [Event.cacheCreated,
        Event.pathResolved (retrieve_fname_halo_table env kw),
        Event.tableLoad (retrieve_fname_halo_table env kw),
        Event.metadataRead (retrieve_fname_halo_table env kw)] ∧
      ("_halo_table" ∉ keysOf (env.fileAttrs (retrieve_fname_halo_table env kw)) →
        v = PyVal.table (env.tableRead (retrieve_fname_halo_table env kw))) := by
  by_cases hh : env.h5pyAvailable = true
  · rw [init_eval_preload env kw hh] at h
    simp only [Prod.mk.injEq, Except.ok.injEq] at h
    obtain ⟨hs, htr⟩ := h
    subst hs
    have hsome : (getattr ((env.fileAttrs (retrieve_fname_halo_table env kw)).foldl
        (bindStep env) (setattr (preMetadataState env kw) "_halo_table"
          (PyVal.table (env.tableRead (retrieve_fname_halo_table env kw)))))
        "_halo_table").isSome = true := by
      apply isSome_getattr_foldl_bindStep
      simp
    obtain ⟨v, hv⟩ := Option.isSome_iff_exists.mp hsome
    refine ⟨v, hv, ?_, htr.symm, ?_⟩
    · simp [halo_table, hv]
    · intro hnot
      rw [getattr_foldl_bindStep_not_mem env _ _ _ hnot,
        getattr_setattr_same] at hv
      exact (Option.some.inj hv).symm
  · simp only [Bool.not_eq_true] at hh
    simp [init, hh] at h

/-- The instance `init demoEnv (PyVal.bool true) wKw` constructs. -/
def wInstPre : Instance :=
  [("redshift", PyVal.floatVal 0), ("simname", PyVal.rawAttr "bolshoi"),
    ("_halo_table", PyVal.table (AstroTable.mk 3)),
    ("fname_halo_table", PyVal.str "f.hdf5"), ("halo_table_cache", PyVal.cacheObj)]

/-- The trace `init demoEnv (PyVal.bool true) wKw` produces. -/
def wTrPre : List Event :=
  [Event.cacheCreated, Event.pathResolved (PyVal.str "f.hdf5"),
    Event.tableLoad (PyVal.str "f.hdf5"), Event.metadataRead (PyVal.str "f.hdf5")]

/-- Witness for C7 at a concrete eager construction. -/
theorem C7_preload_loads_at_construction_witness :
    ∃ v, getattr wInstPre "_halo_table" = Option.some v ∧
      halo_table demoEnv wInstPre = Except.ok (v, wInstPre, []) ∧
      wTrPre = [Event.cacheCreated,
        Event.pathResolved (retrieve_fname_halo_table demoEnv wKw),
        Event.tableLoad (retrieve_fname_halo_table demoEnv wKw),
        Event.metadataRead (retrieve_fname_halo_table demoEnv wKw)] ∧
      ("_halo_table" ∉
          keysOf (demoEnv.fileAttrs (retrieve_fname_halo_table demoEnv wKw)) →
        v = PyVal.table (demoEnv.tableRead (retrieve_fname_halo_table demoEnv wKw))) :=
  C7_preload_loads_at_construction demoEnv wKw wInstPre wTrPre rfl

/-- C8: every key present in the file metadata ends up bound on the instance
to its stored value (`redshift` parsed to a float), and a key absent from the
metadata and distinct from the constructor-written fields is not bound at
all. -/
theorem C8_metadata_keys_bound
    (env : Env) (p : PyVal) (kw : Kwargs) (s : Instance) (tr : List Event)
    (h : init env p kw = (Except.ok s, tr))
    (hnd : (keysOf (env.fileAttrs (retrieve_fname_halo_table env kw))).Nodup) :
    (∀ k v, (k, v) ∈ env.fileAttrs (retrieve_fname_halo_table env kw) →
      getattr s k = Option.some (bindVal env k v)) ∧
    (∀ k, k ∉ keysOf (env.fileAttrs (retrieve_fname_halo_table env kw)) →
      k ≠ "halo_table_cache" → k ≠ "fname_halo_table" → k ≠ "_halo_table" →
      getattr s k = Option.none) := by
  obtain ⟨base, rfl, -, hnone⟩ := init_ok_shape env p kw s tr h
  constructor
  · intro k v hmem
    obtain ⟨l1, l2, hsplit⟩ := List.append_of_mem hmem
    rw [hsplit] at hnd ⊢
    have h2 : k ∉ keysOf l2 := by
      simp only [keysOf, List.map_append, List.map_cons] at hnd
      exact (List.nodup_cons.mp hnd.of_append_right).1
    exact getattr_foldl_bindStep_last env l1 l2 base k v h2
  · intro k hk h1 h2 h3
    rw [getattr_foldl_bindStep_not_mem env _ _ _ hk]
    exact hnone k h1 h2 h3

/-- Witness for C8: the `simname` metadata key of a concrete file surfaces
verbatim on the instance. -/
theorem C8_metadata_keys_bound_witness :
    getattr wInst "simname" = Option.some (PyVal.rawAttr "bolshoi") :=
  (C8_metadata_keys_bound demoEnv (PyVal.bool false) wKw wInst wTr rfl
    (by decide)).1 "simname" "bolshoi" (by decide)

/-- C10: `_bind_metadata` binds unconditionally, so the last metadata
occurrence of any key — including keys colliding with constructor-written
fields such as `fname_halo_table` or `_halo_table` — determines that
attribute of the constructed instance, whatever was bound before. -/
theorem C10_metadata_overwrites_any_field
    (env : Env) (p : PyVal) (kw : Kwargs) (s : Instance) (tr : List Event)
    (l1 l2 : List (String × String)) (k v : String)
    (h : init env p kw = (Except.ok s, tr))
    (hattrs : env.fileAttrs (retrieve_fname_halo_table env kw) =
      l1 ++ (k, v) :: l2)
    (hlast : k ∉ keysOf l2) :
    getattr s k = Option.some (bindVal env k v) := by
  obtain ⟨base, rfl, -, -⟩ := init_ok_shape env p kw s tr h
  rw [hattrs]
  exact getattr_foldl_bindStep_last env l1 l2 base k v hlast

/-- An environment whose files carry a metadata key that collides with the
constructor-written `fname_halo_table` field. -/
def clobberEnv : Env :=
  { demoEnv with fileAttrs := fun _ => [("fname_halo_table", "clobber")] }

/-- The instance `init clobberEnv (PyVal.bool false) wKw` constructs. -/
def clobberInst : Instance :=
  [("fname_halo_table", PyVal.rawAttr "clobber"),
    ("fname_halo_table", PyVal.str "f.hdf5"), ("halo_table_cache", PyVal.cacheObj)]

/-- The trace `init clobberEnv (PyVal.bool false) wKw` produces. -/
def clobberTr : List Event :=
  [Event.cacheCreated, Event.pathResolved (PyVal.str "f.hdf5"),
    Event.metadataRead (PyVal.str "f.hdf5")]

/-- Witness for C10: a file metadata key named `fname_halo_table` silently
overwrites the resolved filename the constructor had stored. -/
theorem C10_metadata_overwrites_any_field_witness :
    getattr clobberInst "fname_halo_table" =
      Option.some (PyVal.rawAttr "clobber") :=
  C10_metadata_overwrites_any_field clobberEnv (PyVal.bool false) wKw
    clobberInst clobberTr [] [] "fname_halo_table" "clobber" rfl rfl (by decide)

/-- An environment whose files carry a metadata key that collides with the
lazily-managed `_halo_table` field. -/
def shadowEnv : Env :=
  { demoEnv with fileAttrs := fun _ => [("_halo_table", "shadow")] }

/-- The instance `init shadowEnv (PyVal.bool false) wKw` constructs. -/
def shadowInst : Instance :=
  [("_halo_table", PyVal.rawAttr "shadow"),
    ("fname_halo_table", PyVal.str "f.hdf5"), ("halo_table_cache", PyVal.cacheObj)]

/-- Counterexample to C2 as stated: constructing with an explicit `fname`
and the default `preload_halo_table=False` can still leave `_halo_table`
set when the file metadata itself carries a `_halo_table` key, because
`_bind_metadata` binds every metadata key unconditionally. -/
theorem C2_counterexample_metadata_sets_halo_table :
    lookupKey wKw "fname" = Option.some (PyVal.str "f.hdf5") ∧
    (init shadowEnv (PyVal.bool false) wKw).1 = Except.ok shadowInst ∧
    getattr shadowInst "_halo_table" = Option.some (PyVal.rawAttr "shadow") :=
  ⟨rfl, rfl, rfl⟩

/-- C2 (amended): constructing with an explicit `fname` and the default
`preload_halo_table=False` never reads the table dataset — the trace holds
exactly the cache construction, the path resolution, and the single
metadata-attribute read, whatever the file contains; and provided the
file's metadata keys do not include `_halo_table`, no `_halo_table` field is
set when `__init__` returns. -/
theorem C2_no_table_read_without_preload
    (env : Env) (kw : Kwargs) (f : PyVal) (s : Instance) (tr : List Event)
    (hf : lookupKey kw "fname" = Option.some f)
    (h : init env (PyVal.bool false) kw = (Except.ok s, tr)) :
    tr = [Event.cacheCreated,
      Event.pathResolved (retrieve_fname_halo_table env kw),
      Event.metadataRead (retrieve_fname_halo_table env kw)] ∧
    ("_halo_table" ∉
        keysOf (env.fileAttrs (retrieve_fname_halo_table env kw)) →
      getattr s "_halo_table" = Option.none) := by
  have hh : env.h5pyAvailable = true := by
    by_contra hc
    simp only [Bool.not_eq_true] at hc
    simp [init, hc] at h
  rw [init_eval_noload env (PyVal.bool false) kw hh (by decide)] at h
  simp only [Prod.mk.injEq, Except.ok.injEq] at h
  obtain ⟨hs, htr⟩ := h
  subst hs
  refine ⟨htr.symm, fun hmeta => ?_⟩
  rw [getattr_foldl_bindStep_not_mem env _ _ _ hmeta]
  simp [preMetadataState, getattr, setattr, lookupKey]

/-- Witness for the amended C2 at a concrete benign construction. -/
theorem C2_no_table_read_without_preload_witness :
    wTr = [Event.cacheCreated,
      Event.pathResolved (retrieve_fname_halo_table demoEnv wKw),
      Event.metadataRead (retrieve_fname_halo_table demoEnv wKw)] ∧
    ("_halo_table" ∉
        keysOf (demoEnv.fileAttrs (retrieve_fname_halo_table demoEnv wKw)) →
      getattr wInst "_halo_table" = Option.none) :=
  C2_no_table_read_without_preload demoEnv wKw (PyVal.str "f.hdf5") wInst wTr
    rfl rfl

/-- The instance `init shadowEnv (PyVal.bool true) wKw` constructs: the table
loaded eagerly at construction is then shadowed by the file's `_halo_table`
metadata key. -/
def shadowPreInst : Instance :=
  [("_halo_table", PyVal.rawAttr "shadow"),
    ("_halo_table", PyVal.table (AstroTable.mk 3)),
    ("fname_halo_table", PyVal.str "f.hdf5"), ("halo_table_cache", PyVal.cacheObj)]

/-- Counterexample to C7 as stated: with `preload_halo_table=True` and a file
whose metadata carries a `_halo_table` key, `_bind_metadata` — which runs
after the eager load — overwrites the loaded table, so when `__init__`
returns the `_halo_table` field holds the raw metadata value and not the
table read from the resolved file. -/
theorem C7_counterexample_metadata_shadows_loaded_table :
    (init shadowEnv (PyVal.bool true) wKw).1 = Except.ok shadowPreInst ∧
    getattr shadowPreInst "_halo_table" = Option.some (PyVal.rawAttr "shadow") ∧
    PyVal.rawAttr "shadow" ≠
      PyVal.table (shadowEnv.tableRead (retrieve_fname_halo_table shadowEnv wKw)) :=
  ⟨rfl, rfl, by decide⟩

end Halotools
